import Mathlib

/-!
# Verification of the blockly-diff editor core (`src/editor.js`)

This file is a shallow embedding, in Lean 4, of the diff/highlight core of
the two-workspace Blockly diff editor, together with theorems settling the
specification claims about it.

Embedding conventions:
* JavaScript `Set` objects (of strings) are embedded as ordered duplicate-free
  lists (`SSet`), with `add` / `delete` / iteration translated literally
  (`sadd`, `sdelete`, `List.foldl`).
* JavaScript runtime values that appear as serialized field states are
  embedded as `JSVal`: primitives carry their value, objects are represented
  by a reference (heap address), so that strict equality `===` can be
  distinguished from structural (deep) equality, which needs a heap.
* DOM / SVG decoration state (CSS classes on block paths and field rects,
  connection highlight markers) is embedded as a set of `DecorKey`s; the
  mutating highlight functions become state transformers.
* JavaScript exceptions (null dereferences) are made explicit: a handler
  returns its result together with an `Option String` error component.
-/

namespace BlocklyDiff

set_option maxRecDepth 4000

/-! ## JavaScript values

`saveState(true)` produces a JSON-compatible value.  Primitives compare by
value under `===`; objects and arrays compare by reference identity.  We model
an object value as a reference into a heap of structural trees, so both
strict equality (`strictEq`, the code's `===`) and deep structural equality
(`deepEq`, the spec's notion) are expressible. -/

inductive Prim where
  | pstr : String → Prim
  | pint : Int → Prim
  | pbool : Bool → Prim
  | pnull : Prim
  deriving DecidableEq, Repr

/-- A JavaScript runtime value: a primitive, a reference to a heap object, or
a built-in function object (as found on `Object.prototype`). -/
inductive JSVal where
  | prim : Prim → JSVal
  | ref : Nat → JSVal
  | builtin : String → JSVal
  deriving DecidableEq, Repr

/-- JavaScript strict equality `===`: primitives by value, objects by
reference identity. -/
def strictEq : JSVal → JSVal → Bool
  | JSVal.prim p, JSVal.prim q => p == q
  | JSVal.ref a, JSVal.ref b => a == b
  | JSVal.builtin a, JSVal.builtin b => a == b
  | _, _ => false

mutual
/-- A structural (JSON) tree: what an object on the heap looks like. -/
inductive JTree where
  | leaf : Prim → JTree
  | node : JFields → JTree

/-- Field list of a structural JSON object. -/
inductive JFields where
  | fnil : JFields
  | fcons : String → JTree → JFields → JFields
end

mutual
def JTree.beq : JTree → JTree → Bool
  | JTree.leaf p, JTree.leaf q => p == q
  | JTree.node fs, JTree.node gs => JFields.beq fs gs
  | _, _ => false

def JFields.beq : JFields → JFields → Bool
  | JFields.fnil, JFields.fnil => true
  | JFields.fcons k v fs, JFields.fcons l w gs =>
      k == l && JTree.beq v w && JFields.beq fs gs
  | _, _ => false
end

/-- The heap: address `a` holds the structural tree of object `ref a`. -/
def Heap := List JTree

/-- Dereference a value to its structural tree (primitives are their own
tree; built-in functions have no JSON structure). -/
def deref (h : Heap) : JSVal → Option JTree
  | JSVal.prim p => some (JTree.leaf p)
  | JSVal.ref a => h.get? a
  | JSVal.builtin _ => none

/-- Modelled from the spec: deep (structural) equality of two serialized
values — "a structural/JSON-compatible value, treated as opaque and compared
for deep equality, not identity".  The code itself has no such operation. -/
def deepEq (h : Heap) (v w : JSVal) : Bool :=
  match deref h v, deref h w with
  | some x, some y => JTree.beq x y
  | _, _ => false

/-! ## JavaScript records (objects used as string-keyed maps)

`saveFields` builds its result with `Object.create(null)`, i.e. a record with
no prototype.  Ordinary object literals have `Object.prototype` in their
prototype chain, so looking up e.g. `"toString"` on them succeeds.  We model a
record as its own properties plus a flag saying whether `Object.prototype`
is in the chain. -/

structure JSRecord where
  own : List (String × JSVal)
  hasObjectProto : Bool
  deriving DecidableEq, Repr

/-- Property names found on `Object.prototype`. -/
def objectProtoMembers : List String :=
  ["constructor", "hasOwnProperty", "isPrototypeOf", "propertyIsEnumerable",
   "toLocaleString", "toString", "valueOf"]

/-- Own-property lookup (`Object.entries`-visible properties). -/
def getProp (m : List (String × JSVal)) (k : String) : Option JSVal :=
  List.lookup k m

/-- Member access `r[k]` as JavaScript performs it: own properties first,
then the prototype chain (only `Object.prototype`, when present).  A miss
yields `undefined`, modelled as `none`. -/
def getMember (r : JSRecord) (k : String) : Option JSVal :=
  match getProp r.own k with
  | some v => some v
  | none =>
      if r.hasObjectProto && objectProtoMembers.contains k then
        some (JSVal.builtin k)
      else
        none

/-! ## Data model: blocks, connections, workspaces -/

inductive ConnKind where
  | inputValue
  | outputValue
  | nextStatement
  | previousStatement
  deriving DecidableEq, Repr

/-- A connection endpoint as returned by `block.getConnections_()`.
`parentInput` is the name of the input slot owning the connection
(`connection.getParentInput().name`), when there is one; `targetId` is the id
of `connection.targetBlock()`, when attached. -/
structure Connection where
  kind : ConnKind
  parentInput : Option String
  targetId : Option String
  deriving DecidableEq, Repr

/-- A field inside an input row. `serializable` is `field.isSerializable()`;
`state` is the value `field.saveState(true)` returns. -/
structure Field where
  name : String
  serializable : Bool
  state : JSVal
  deriving DecidableEq, Repr

structure Input where
  name : String
  fieldRow : List Field
  deriving DecidableEq, Repr

/-- A block: id, position (`getRelativeToSurfaceXY`), inputs, connections. -/
structure Block where
  id : String
  xy : Int × Int
  inputList : List Input
  connections : List Connection
  deriving DecidableEq, Repr

/-- A workspace snapshot: id, `getAllBlocks()` in enumeration order, scroll
state and `getMetrics()` data used by the scroll synchronizer. -/
structure Workspace where
  id : String
  blocks : List Block
  scrollY : Int
  scale : Int
  scrollLeft : Int
  scrollTop : Int
  deriving DecidableEq, Repr

/-- `workspace.getBlockById(id)`: `null` becomes `none`. -/
def getBlockById (w : Workspace) (id : String) : Option Block :=
  w.blocks.find? (fun b => b.id == id)

/-- `block.getField(name)`: searches every field of every input. -/
def getField (b : Block) (name : String) : Option Field :=
  (b.inputList.flatMap (fun i => i.fieldRow)).find? (fun f => f.name == name)

/-! ## Set algebra (`intersection`, `difference`, lines 445-461)

A JS `Set` iterates in insertion order; `SSet` is that iteration order. -/

abbrev SSet := List String

/-- `set.add(x)`: no-op when already present, else appended at the end. -/
def sadd (s : SSet) (x : String) : SSet :=
  if x ∈ s then s else s ++ [x]

/-- `set.delete(x)`. -/
def sdelete (s : SSet) (x : String) : SSet :=
  List.filter (fun y => y ≠ x) s

/-- `new Set(iterable)`: add the elements one by one. -/
def newSet (l : List String) : SSet :=
  l.foldl sadd []

/-- Lines 445-453: `intersection(setA, setB)`. -/
def intersection (setA setB : SSet) : SSet :=
  setB.foldl (fun acc elem => if elem ∈ setA then sadd acc elem else acc) []

/-- Lines 455-461: `difference(setA, setB)` — copy `setA`, then delete every
element of `setB`. -/
def difference (setA setB : SSet) : SSet :=
  setB.foldl (fun acc elem => sdelete acc elem) (newSet setA)

/-- Lines 463-474: `get_ids(blocks)`. -/
def get_ids (blocks : List Block) : SSet :=
  blocks.foldl (fun ids b => sadd ids b.id) []

/-- The edge-key string built at line 510:
`block.id + ' ' + name + ' ' + target_id`. -/
def edgeKey (bid name tid : String) : String :=
  bid ++ " " ++ name ++ " " ++ tid

/-- Lines 476-515: `get_connections(blocks)` — one edge key per
next-statement connection, named input's name or the sentinel `next`,
target block id or the sentinel `none`. -/
def get_connections (blocks : List Block) : SSet :=
  blocks.foldl
    (fun connections_set block =>
      block.connections.foldl
        (fun cs connection =>
          if connection.kind = ConnKind.nextStatement then
            let name :=
              match connection.parentInput with
              | some input => input
              | none => "next"
            let target_id :=
              match connection.targetId with
              | some t => t
              | none => "none"
            sadd cs (edgeKey block.id name target_id)
          else cs)
        connections_set)
    []

/-! ### Membership lemmas for the set algebra -/

theorem mem_sadd {s : SSet} {x y : String} :
    y ∈ sadd s x ↔ y ∈ s ∨ y = x := by
  unfold sadd
  by_cases h : x ∈ s
  · simp only [if_pos h]
    constructor
    · exact Or.inl
    · rintro (hy | rfl)
      · exact hy
      · exact h
  · simp only [if_neg h]
    show y ∈ s ++ [x] ↔ _
    simp [List.mem_append]

theorem mem_sdelete {s : SSet} {x y : String} :
    y ∈ sdelete s x ↔ y ∈ s ∧ y ≠ x := by
  unfold sdelete
  show y ∈ List.filter _ s ↔ _
  simp [List.mem_filter]

theorem mem_foldl_sadd (l : List String) :
    ∀ (acc : SSet) (y : String), y ∈ l.foldl sadd acc ↔ y ∈ acc ∨ y ∈ l := by
  induction l with
  | nil => intro acc y; simp
  | cons x xs ih =>
      intro acc y
      simp only [List.foldl_cons, ih, mem_sadd, List.mem_cons]
      tauto

theorem mem_newSet {l : List String} {y : String} :
    y ∈ newSet l ↔ y ∈ l := by
  unfold newSet
  rw [mem_foldl_sadd]
  simp

theorem mem_foldl_sdelete (B : List String) :
    ∀ (acc : SSet) (y : String),
      y ∈ B.foldl (fun acc elem => sdelete acc elem) acc ↔ y ∈ acc ∧ y ∉ B := by
  induction B with
  | nil => intro acc y; simp
  | cons b bs ih =>
      intro acc y
      simp only [List.foldl_cons, ih, mem_sdelete, List.mem_cons]
      tauto

theorem mem_difference {A B : SSet} {y : String} :
    y ∈ difference A B ↔ y ∈ A ∧ y ∉ B := by
  unfold difference
  rw [mem_foldl_sdelete, mem_newSet]

theorem mem_foldl_inter (A : SSet) (B : List String) :
    ∀ (acc : SSet) (y : String),
      y ∈ B.foldl (fun acc elem => if elem ∈ A then sadd acc elem else acc) acc ↔
        y ∈ acc ∨ (y ∈ B ∧ y ∈ A) := by
  induction B with
  | nil => intro acc y; simp
  | cons b bs ih =>
      intro acc y
      simp only [List.foldl_cons]
      by_cases hb : b ∈ A
      · simp only [if_pos hb, ih, mem_sadd, List.mem_cons]
        constructor
        · rintro ((hy | rfl) | hy)
          · exact Or.inl hy
          · exact Or.inr ⟨Or.inl rfl, hb⟩
          · exact Or.inr ⟨Or.inr hy.1, hy.2⟩
        · rintro (hy | ⟨(rfl | hy), hA⟩)
          · exact Or.inl (Or.inl hy)
          · exact Or.inl (Or.inr rfl)
          · exact Or.inr ⟨hy, hA⟩
      · simp only [if_neg hb, ih, List.mem_cons]
        constructor
        · rintro (hy | hy)
          · exact Or.inl hy
          · exact Or.inr ⟨Or.inr hy.1, hy.2⟩
        · rintro (hy | ⟨(rfl | hy), hA⟩)
          · exact Or.inl hy
          · exact absurd hA hb
          · exact Or.inr ⟨hy, hA⟩

theorem mem_intersection {A B : SSet} {y : String} :
    y ∈ intersection A B ↔ y ∈ B ∧ y ∈ A := by
  unfold intersection
  rw [mem_foldl_inter]
  simp

/-! ## Reference characterization of the edge-key extractor (for C4)

`nextEdgeKeyOf` mirrors, per connection, the emission condition and key
construction of `get_connections`; `nextEdgeKeys` lists one key per
next-statement connection of each block. -/

def nextEdgeKeyOf (b : Block) (c : Connection) : Option String :=
  if c.kind = ConnKind.nextStatement then
    let name :=
      match c.parentInput with
      | some input => input
      | none => "next"
    let target_id :=
      match c.targetId with
      | some t => t
      | none => "none"
    some (edgeKey b.id name target_id)
  else
    none

def nextEdgeKeys (blocks : List Block) : List String :=
  blocks.flatMap (fun b => b.connections.filterMap (nextEdgeKeyOf b))

theorem connStep_eq (cs : SSet) (b : Block) (c : Connection) :
    (if c.kind = ConnKind.nextStatement then
      let name :=
        match c.parentInput with
        | some input => input
        | none => "next"
      let target_id :=
        match c.targetId with
        | some t => t
        | none => "none"
      sadd cs (edgeKey b.id name target_id)
    else cs) =
      match nextEdgeKeyOf b c with
      | some k => sadd cs k
      | none => cs := by
  unfold nextEdgeKeyOf
  by_cases h : c.kind = ConnKind.nextStatement <;> simp [h]

theorem mem_foldl_conn (b : Block) (conns : List Connection) :
    ∀ (acc : SSet) (y : String),
      y ∈ conns.foldl
          (fun cs connection =>
            if connection.kind = ConnKind.nextStatement then
              let name :=
                match connection.parentInput with
                | some input => input
                | none => "next"
              let target_id :=
                match connection.targetId with
                | some t => t
                | none => "none"
              sadd cs (edgeKey b.id name target_id)
            else cs)
          acc ↔
        y ∈ acc ∨ y ∈ conns.filterMap (nextEdgeKeyOf b) := by
  induction conns with
  | nil => intro acc y; simp
  | cons c cs ih =>
      intro acc y
      rw [List.foldl_cons, ih, connStep_eq]
      rcases hk : nextEdgeKeyOf b c with _ | k
      · simp [List.filterMap_cons, hk]
      · simp only [List.filterMap_cons, hk, List.mem_cons, mem_sadd]
        tauto

theorem mem_get_connections {blocks : List Block} {y : String} :
    y ∈ get_connections blocks ↔ y ∈ nextEdgeKeys blocks := by
  unfold get_connections nextEdgeKeys
  have main :
      ∀ (bs : List Block) (acc : SSet),
        y ∈ bs.foldl
            (fun connections_set block =>
              block.connections.foldl
                (fun cs connection =>
                  if connection.kind = ConnKind.nextStatement then
                    let name :=
                      match connection.parentInput with
                      | some input => input
                      | none => "next"
                    let target_id :=
                      match connection.targetId with
                      | some t => t
                      | none => "none"
                    sadd cs (edgeKey block.id name target_id)
                  else cs)
                connections_set)
            acc ↔
          y ∈ acc ∨ y ∈ bs.flatMap (fun b => b.connections.filterMap (nextEdgeKeyOf b)) := by
    intro bs
    induction bs with
    | nil => intro acc; simp
    | cons b rest ih =>
        intro acc
        simp only [List.foldl_cons]
        rw [ih, mem_foldl_conn]
        simp only [List.flatMap_cons, List.mem_append]
        tauto
  rw [main]
  simp

theorem length_filterMap_nextEdgeKeyOf (b : Block) (conns : List Connection) :
    (conns.filterMap (nextEdgeKeyOf b)).length =
      (conns.filter (fun c => c.kind = ConnKind.nextStatement)).length := by
  induction conns with
  | nil => rfl
  | cons c cs ih =>
      by_cases h : c.kind = ConnKind.nextStatement
      · have hk : (nextEdgeKeyOf b c).isSome = true := by
          unfold nextEdgeKeyOf
          simp [h]
        rcases hsome : nextEdgeKeyOf b c with _ | k
        · rw [hsome] at hk; simp at hk
        · simp [List.filterMap_cons, hsome, List.filter_cons, h, ih]
      · have hk : nextEdgeKeyOf b c = none := by
          unfold nextEdgeKeyOf
          simp [h]
        simp [List.filterMap_cons, hk, List.filter_cons, h, ih]

/-! ## String splitting (`id.split(' ')`, lines 714-718 and 758-762)

JavaScript `s.split(' ')` cuts `s` at every single space character. -/

def splitChars (sep : Char) : List Char → List (List Char)
  | [] => [[]]
  | c :: cs =>
      match splitChars sep cs with
      | [] => [[]]
      | g :: gs => if c = sep then [] :: g :: gs else (c :: g) :: gs

/-- `s.split(' ')` as used by the connection highlight routines. -/
def jsSplit (s : String) : List String :=
  (splitChars ' ' s.data).map (fun l => String.mk l)

theorem splitChars_cons (sep c : Char) (cs : List Char) :
    splitChars sep (c :: cs) =
      match splitChars sep cs with
      | [] => [[]]
      | g :: gs => if c = sep then [] :: g :: gs else (c :: g) :: gs := by
  rfl

theorem splitChars_ne_nil (sep : Char) (l : List Char) :
    splitChars sep l ≠ [] := by
  cases l with
  | nil => simp [splitChars]
  | cons c cs =>
      unfold splitChars
      rcases h : splitChars sep cs with _ | ⟨g, gs⟩
      · simp
      · by_cases hc : c = sep <;> simp [hc]

theorem splitChars_no_sep {sep : Char} {l : List Char} (h : sep ∉ l) :
    splitChars sep l = [l] := by
  induction l with
  | nil => rfl
  | cons c cs ih =>
      have hc : c ≠ sep := fun hcs => h (hcs ▸ List.mem_cons_self c cs)
      have hcs : sep ∉ cs := fun hm => h (List.mem_cons_of_mem c hm)
      unfold splitChars
      rw [ih hcs]
      simp [hc]

theorem splitChars_append_sep {sep : Char} {xs : List Char} (ys : List Char)
    (h : sep ∉ xs) :
    splitChars sep (xs ++ sep :: ys) = xs :: splitChars sep ys := by
  induction xs with
  | nil =>
      simp only [List.nil_append]
      rw [splitChars_cons]
      rcases hy : splitChars sep ys with _ | ⟨g, gs⟩
      · exact absurd hy (splitChars_ne_nil sep ys)
      · simp
  | cons x xs ih =>
      have hx : x ≠ sep := fun hxs => h (hxs ▸ List.mem_cons_self x xs)
      have hxs : sep ∉ xs := fun hm => h (List.mem_cons_of_mem x hm)
      simp only [List.cons_append]
      rw [splitChars_cons, ih hxs]
      simp [hx]

theorem string_data_append (a b : String) : (a ++ b).data = a.data ++ b.data :=
  rfl

/-! ## Field-state extractor (`saveFields`, lines 572-584)

The result object is created with `Object.create(null)`, so it has no
prototype chain; `fields[field.name] = field.saveState(true)` assigns an own
property (overwriting in place when the name repeats). -/

/-- JavaScript own-property assignment `m[k] = v`: an existing key keeps its
position in enumeration order, a new key is appended. -/
def setProp (m : List (String × JSVal)) (k : String) (v : JSVal) :
    List (String × JSVal) :=
  if (getProp m k).isSome then
    m.map (fun p => if p.1 = k then (k, v) else p)
  else
    m ++ [(k, v)]

/-- Lines 572-584: `saveFields(block)` — iterate inputs in order, fields in
order, keep the serializable ones.  The record has no `Object.prototype`. -/
def saveFields (block : Block) : JSRecord :=
  { own :=
      block.inputList.foldl
        (fun fields input =>
          input.fieldRow.foldl
            (fun fields field =>
              if field.serializable then setProp fields field.name field.state
              else fields)
            fields)
        []
    hasObjectProto := false }

/-- The names of the block's serializable fields, in extraction order. -/
def serializableFieldNames (block : Block) : List String :=
  block.inputList.flatMap
    (fun input => (input.fieldRow.filter (fun f => f.serializable)).map (fun f => f.name))

/-- The verdict computed at line 679: `previous_state[key] === value`.
A missing property reads as `undefined`, which is `===` to no JSON value. -/
def fieldVerdict (previous_state : JSRecord) (key : String) (value : JSVal) : Bool :=
  match getMember previous_state key with
  | some pv => strictEq pv value
  | none => false

/-- Lines 678-689: the per-field verdicts of the field-diff loop, one entry
per `Object.entries(mine_state)` pair; `true` is the "equal/valid" verdict,
`false` the "unequal/invalid" one. -/
def fieldDiffVerdict (mine_state : List (String × JSVal))
    (previous_state : JSRecord) : List (String × Bool) :=
  mine_state.map (fun kv => (kv.1, fieldVerdict previous_state kv.1 kv.2))

/-! ## Selection/search bridge (`myMineSelection` / `myPreviousSelection`,
lines 586-619)

The handlers run against the *other* workspace.  Their effects on the search
highlighter are recorded as an action list; a JavaScript `TypeError` (null
dereference) is an `Except.error`. -/

inductive SelAction where
  | unhighlightSearchGroup : List String → SelAction
  | highlightSearchGroup : List String → SelAction
  | highlightCurrentSelection : String → SelAction
  | scrollToVisible : String → SelAction
  deriving DecidableEq, Repr

structure SelEvent where
  type : String
  blockId : Option String
  newElementId : Option String
  deriving DecidableEq, Repr

/-- JavaScript truthiness of a possibly-undefined string. -/
def truthy : Option String → Bool
  | none => false
  | some s => s ≠ ""

/-- Lines 586-605: `myMineSelection(event)` — `block` is looked up in
`previous_workspace`; `block.workspace.getAllBlocks()` dereferences `block`
with no null check, so a missing block throws. -/
def myMineSelection (previous_workspace : Workspace) (event : SelEvent) :
    Except String (List SelAction) :=
  let clickActs :=
    if event.type = "click" && !truthy event.blockId then
      [SelAction.unhighlightSearchGroup (previous_workspace.blocks.map (fun b => b.id))]
    else []
  if event.type = "selected" then
    if truthy event.newElementId then
      match getBlockById previous_workspace (event.newElementId.getD "") with
      | none => Except.error "TypeError: block is null"
      | some block =>
          Except.ok (clickActs ++
            [SelAction.unhighlightSearchGroup (previous_workspace.blocks.map (fun b => b.id)),
             SelAction.highlightSearchGroup [block.id],
             SelAction.highlightCurrentSelection block.id,
             SelAction.scrollToVisible block.id])
    else Except.ok clickActs
  else Except.ok clickActs

/-- Lines 607-619: `myPreviousSelection(event)` — same shape, looked up in
`mine_workspace`, also with no null check. -/
def myPreviousSelection (mine_workspace : Workspace) (event : SelEvent) :
    Except String (List SelAction) :=
  if event.type = "selected" then
    if truthy event.newElementId then
      match getBlockById mine_workspace (event.newElementId.getD "") with
      | none => Except.error "TypeError: block is null"
      | some block =>
          Except.ok
            [SelAction.unhighlightSearchGroup (mine_workspace.blocks.map (fun b => b.id)),
             SelAction.highlightSearchGroup [block.id],
             SelAction.highlightCurrentSelection block.id,
             SelAction.scrollToVisible block.id]
    else Except.ok []
  else Except.ok []

/-! ## Scroll synchronizer (`scroll`, lines 517-570) -/

structure ScrollEvent where
  type : String
  workspaceId : String
  deriving DecidableEq, Repr

/-- A call `other_workspace.scrollbar.set(x, y)`. -/
structure ScrollCmd where
  workspaceId : String
  x : Int
  y : Int
  deriving DecidableEq, Repr

/-- Lines 544-567: find the first block (enumeration order) below the scroll
offset, look it up in the other workspace, and compute the scrollbar target.
When the loop finds no block, `top_left_block_id` stays `undefined` and the
`getBlockById` lookup misses, so no command is issued. -/
def scrollCore (this_workspace other_workspace : Workspace) : Option ScrollCmd :=
  match this_workspace.blocks.find? (fun b => b.xy.2 > -this_workspace.scrollY) with
  | none => none
  | some top_left_block =>
      match getBlockById other_workspace top_left_block.id with
      | none => none
      | some corresponding_block =>
          some
            { workspaceId := other_workspace.id
              x := corresponding_block.xy.1 * other_workspace.scale -
                     other_workspace.scrollLeft
              y := corresponding_block.xy.2 * other_workspace.scale -
                     other_workspace.scrollTop - top_left_block.xy.2 -
                     this_workspace.scrollY }

/-- Lines 517-570: `scroll(event)` as a transition on the shared `busy` flag,
returning the new flag value and the scroll command issued, if any.  When
`busy` is set, the event is treated as the echo of a self-triggered scroll:
the flag is cleared and nothing else happens. -/
def scroll (mine_workspace previous_workspace : Workspace) (busy : Bool)
    (event : ScrollEvent) : Bool × Option ScrollCmd :=
  if event.type = "viewport_change" then
    if busy then
      (false, none)
    else
      if event.workspaceId = mine_workspace.id then
        (true, scrollCore mine_workspace previous_workspace)
      else
        (true, scrollCore previous_workspace mine_workspace)
  else
    (busy, none)

/-! ## Decoration state

The rendered decoration state consists of: CSS classes on a block's SVG path
(`highlightMineAdded` / `highlightMineRemoved` / `unhighlightCommon`),
connection highlight markers (`connection.highlight()` sets
`connection.highlightPath`), and the `blocklyInvalidInput` class on a field's
rect (`apply_valid` / `apply_invalid`).  Every such mark lives on a concrete
SVG element, identified here by which workspace it is in plus block id and
class name, connection index, or field name. -/

inductive Side where
  | mineSide
  | prevSide
  deriving DecidableEq, Repr

inductive DecorKey where
  | blockCls : Side → String → String → DecorKey
  | connHl : Side → String → Nat → DecorKey
  | fieldInvalid : Side → String → String → DecorKey
  deriving DecidableEq, Repr

/-- The set of decorations currently present. -/
abbrev DecorState := List DecorKey

/-- `Blockly.utils.dom.addClass` and `connection.highlight()`: idempotent
insertion. -/
def dInsert (s : DecorState) (k : DecorKey) : DecorState :=
  if k ∈ s then s else s ++ [k]

/-- `Blockly.utils.dom.removeClass` and `connection.unhighlight()`. -/
def dErase (s : DecorState) (k : DecorKey) : DecorState :=
  List.filter (fun x => x ≠ k) s

/-- A primitive decoration update: force the mark `op.1` to be present
(`op.2 = true`) or absent (`op.2 = false`). -/
abbrev DOp := DecorKey × Bool

def applyOp (s : DecorState) (op : DOp) : DecorState :=
  if op.2 then dInsert s op.1 else dErase s op.1

def applyOps (s : DecorState) (ops : List DOp) : DecorState :=
  ops.foldl applyOp s

def clsAdded : String := "blockly-ws-merge-highlight-mine-added"
def clsRemoved : String := "blockly-ws-merge-highlight-mine-removed"

/-- Lines 323-327: `highlightMineAdded`. -/
def highlightMineAdded (side : Side) (blockId : String) (s : DecorState) : DecorState :=
  dInsert s (DecorKey.blockCls side blockId clsAdded)

/-- Lines 328-331: `highlightMineRemoved`. -/
def highlightMineRemoved (side : Side) (blockId : String) (s : DecorState) : DecorState :=
  dInsert s (DecorKey.blockCls side blockId clsRemoved)

/-- Lines 316-322: `unhighlightCommon` — remove both merge classes. -/
def unhighlightCommon (side : Side) (blockId : String) (s : DecorState) : DecorState :=
  dErase (dErase s (DecorKey.blockCls side blockId clsAdded))
    (DecorKey.blockCls side blockId clsRemoved)

/-- Lines 693-700: `apply_valid(block, key)` — `block.getField(key)` is
dereferenced with no null check, so a missing field throws; otherwise the
`blocklyInvalidInput` class is removed from the field's rect. -/
def apply_valid (side : Side) (block : Block) (key : String) (s : DecorState) :
    DecorState × Option String :=
  match getField block key with
  | none => (s, some "TypeError: field is null")
  | some _ => (dErase s (DecorKey.fieldInvalid side block.id key), none)

/-- Lines 702-709: `apply_invalid(block, key)`. -/
def apply_invalid (side : Side) (block : Block) (key : String) (s : DecorState) :
    DecorState × Option String :=
  match getField block key with
  | none => (s, some "TypeError: field is null")
  | some _ => (dInsert s (DecorKey.fieldInvalid side block.id key), none)

/-! ## Sequencing of fallible decoration steps

A JavaScript exception aborts the handler, keeping the decoration state
mutated so far; we thread `DecorState × Option String`. -/

/-- Run `k` unless an exception is already pending. -/
def andThen (r : DecorState × Option String)
    (k : DecorState → DecorState × Option String) : DecorState × Option String :=
  match r with
  | (s, none) => k s
  | (s, some e) => (s, some e)

/-- Run a fallible body over a list, stopping at the first exception
(a `for` loop whose body may throw). -/
def stepAll (f : DecorState → α → DecorState × Option String) :
    DecorState → List α → DecorState × Option String
  | s, [] => (s, none)
  | s, x :: xs =>
      match f s x with
      | (s1, none) => stepAll f s1 xs
      | (s1, some e) => (s1, some e)

/-- Pure mirror of `stepAll`: the decoration updates issued (up to and
including the iteration that throws) and the exception, if any. -/
def traceAll (g : α → List DOp × Option String) : List α → List DOp × Option String
  | [] => ([], none)
  | x :: xs =>
      match g x with
      | (ops, none) => (ops ++ (traceAll g xs).1, (traceAll g xs).2)
      | (ops, some e) => (ops, some e)

/-- Pure mirror of `andThen`. -/
def seqTrace (a b : List DOp × Option String) : List DOp × Option String :=
  match a.2 with
  | none => (a.1 ++ b.1, b.2)
  | some e => (a.1, some e)

/-! ## Connection highlight driver
(`highlight_connections` lines 755-796, `unhighlight_connections` 712-752)

Both routines split the edge key, look up the source block, and walk its
next-statement connections; a connection matches when its parent input's name
equals the key's second component (or it has no parent input and that
component is `next`).  `highlight` runs under `if (!connection.highlightPath)`
and `unhighlight` under `if (connection.highlightPath)` — i.e. they force the
marker to present / absent, which is exactly `applyOp`. -/

/-- The decoration updates the inner connection loop performs on the matching
connections of `block` (`hl = true` for `highlight_connections`, `false` for
`unhighlight_connections`). -/
def connMatchOps (hl : Bool) (side : Side) (block : Block)
    (input_name : Option String) : List DOp :=
  block.connections.enum.filterMap
    (fun jc =>
      if jc.2.kind = ConnKind.nextStatement then
        match jc.2.parentInput with
        | some iname =>
            if input_name = some iname then
              some (DecorKey.connHl side block.id jc.1, hl)
            else none
        | none =>
            if input_name = some "next" then
              some (DecorKey.connHl side block.id jc.1, hl)
            else none
      else none)

/-- One iteration of the outer loop of `highlight_connections` /
`unhighlight_connections`: split the key, look up the block (the
`block.getConnections_()` call throws when the lookup misses), then force the
matching connection markers. -/
def connLineBody (hl : Bool) (side : Side) (ws : Workspace) (s : DecorState)
    (key : String) : DecorState × Option String :=
  let sp := jsSplit key
  let from_id := sp.headI
  let input_name := sp[1]?
  match getBlockById ws from_id with
  | none => (s, some "TypeError: block is null")
  | some block => (applyOps s (connMatchOps hl side block input_name), none)

/-- Pure mirror of `connLineBody`. -/
def connLineTrace (hl : Bool) (side : Side) (ws : Workspace) (key : String) :
    List DOp × Option String :=
  match getBlockById ws (jsSplit key).headI with
  | none => ([], some "TypeError: block is null")
  | some block => (connMatchOps hl side block (jsSplit key)[1]?, none)

/-- Lines 755-796: `highlight_connections(connections_diff, this_workspace)`. -/
def highlight_connections (side : Side) (ws : Workspace) (connections_diff : SSet)
    (s : DecorState) : DecorState × Option String :=
  stepAll (connLineBody true side ws) s connections_diff

/-- Lines 712-752: `unhighlight_connections(connections_same, this_workspace)`. -/
def unhighlight_connections (side : Side) (ws : Workspace) (connections_same : SSet)
    (s : DecorState) : DecorState × Option String :=
  stepAll (connLineBody false side ws) s connections_same

/-! ## The diff engine / highlight driver (`show_diffs`, lines 623-691) -/

/-- Lines 636-639: highlight one added block (the `getAllBlocks`-backed
lookup cannot miss for an id of the added set, but the code dereferences the
lookup result, so the embedding keeps the failure case explicit). -/
def addedBody (mine_ws : Workspace) (s : DecorState) (id : String) :
    DecorState × Option String :=
  match getBlockById mine_ws id with
  | none => (s, some "TypeError: block is null")
  | some mine_block => (highlightMineAdded Side.mineSide mine_block.id s, none)

def addedTrace (mine_ws : Workspace) (id : String) : List DOp × Option String :=
  match getBlockById mine_ws id with
  | none => ([], some "TypeError: block is null")
  | some mine_block =>
      ([(DecorKey.blockCls Side.mineSide mine_block.id clsAdded, true)], none)

/-- Lines 641-644: highlight one removed block on the previous side. -/
def removedBody (previous_ws : Workspace) (s : DecorState) (id : String) :
    DecorState × Option String :=
  match getBlockById previous_ws id with
  | none => (s, some "TypeError: block is null")
  | some previous_block => (highlightMineRemoved Side.prevSide previous_block.id s, none)

def removedTrace (previous_ws : Workspace) (id : String) : List DOp × Option String :=
  match getBlockById previous_ws id with
  | none => ([], some "TypeError: block is null")
  | some previous_block =>
      ([(DecorKey.blockCls Side.prevSide previous_block.id clsRemoved, true)], none)

/-- Lines 647-652: clear both merge classes on both sides of one common
block.  Both lookups happen first; `unhighlightCommon(previous_block)` runs
(and mutates) before `unhighlightCommon(mine_block)` can throw. -/
def commonBody (mine_ws previous_ws : Workspace) (s : DecorState) (id : String) :
    DecorState × Option String :=
  match getBlockById previous_ws id with
  | none => (s, some "TypeError: block is null")
  | some previous_block =>
      let s1 := unhighlightCommon Side.prevSide previous_block.id s
      match getBlockById mine_ws id with
      | none => (s1, some "TypeError: block is null")
      | some mine_block => (unhighlightCommon Side.mineSide mine_block.id s1, none)

def commonTrace (mine_ws previous_ws : Workspace) (id : String) :
    List DOp × Option String :=
  match getBlockById previous_ws id with
  | none => ([], some "TypeError: block is null")
  | some previous_block =>
      match getBlockById mine_ws id with
      | none =>
          ([(DecorKey.blockCls Side.prevSide previous_block.id clsAdded, false),
            (DecorKey.blockCls Side.prevSide previous_block.id clsRemoved, false)],
           some "TypeError: block is null")
      | some mine_block =>
          ([(DecorKey.blockCls Side.prevSide previous_block.id clsAdded, false),
            (DecorKey.blockCls Side.prevSide previous_block.id clsRemoved, false),
            (DecorKey.blockCls Side.mineSide mine_block.id clsAdded, false),
            (DecorKey.blockCls Side.mineSide mine_block.id clsRemoved, false)],
           none)

/-- Lines 678-689: diff one field entry of `Object.entries(mine_state)` —
apply valid/invalid marks to the mine-side field, then the previous-side
field; either `getField` dereference can throw. -/
def fieldEntryBody (mine_block previous_block : Block) (previous_state : JSRecord)
    (s : DecorState) (kv : String × JSVal) : DecorState × Option String :=
  if fieldVerdict previous_state kv.1 kv.2 then
    andThen (apply_valid Side.mineSide mine_block kv.1 s)
      (fun s1 => apply_valid Side.prevSide previous_block kv.1 s1)
  else
    andThen (apply_invalid Side.mineSide mine_block kv.1 s)
      (fun s1 => apply_invalid Side.prevSide previous_block kv.1 s1)

def fieldEntryTrace (mine_block previous_block : Block) (previous_state : JSRecord)
    (kv : String × JSVal) : List DOp × Option String :=
  let mark := !fieldVerdict previous_state kv.1 kv.2
  match getField mine_block kv.1 with
  | none => ([], some "TypeError: field is null")
  | some _ =>
      match getField previous_block kv.1 with
      | none =>
          ([(DecorKey.fieldInvalid Side.mineSide mine_block.id kv.1, mark)],
           some "TypeError: field is null")
      | some _ =>
          ([(DecorKey.fieldInvalid Side.mineSide mine_block.id kv.1, mark),
            (DecorKey.fieldInvalid Side.prevSide previous_block.id kv.1, mark)],
           none)

/-- Lines 669-690: the per-common-block field-diff loop body.  Both blocks
are looked up; `saveFields(mine_block)` dereferences `mine_block` first. -/
def fieldIdBody (mine_ws previous_ws : Workspace) (s : DecorState) (id : String) :
    DecorState × Option String :=
  match getBlockById mine_ws id with
  | none => (s, some "TypeError: block is null")
  | some mine_block =>
      match getBlockById previous_ws id with
      | none => (s, some "TypeError: block is null")
      | some previous_block =>
          stepAll (fieldEntryBody mine_block previous_block (saveFields previous_block))
            s (saveFields mine_block).own

def fieldIdTrace (mine_ws previous_ws : Workspace) (id : String) :
    List DOp × Option String :=
  match getBlockById mine_ws id with
  | none => ([], some "TypeError: block is null")
  | some mine_block =>
      match getBlockById previous_ws id with
      | none => ([], some "TypeError: block is null")
      | some previous_block =>
          traceAll (fieldEntryTrace mine_block previous_block (saveFields previous_block))
            (saveFields mine_block).own

/-- Lines 623-691: `show_diffs` — recompute the id and edge-key diff sets
from both workspaces and drive all decoration updates, as a transformer of
the decoration state (the set computations are pure and hoisted to the
top; the decoration phases run in source order). -/
def show_diffs (mine_ws previous_ws : Workspace) (s : DecorState) :
    DecorState × Option String :=
  let mine_ids := get_ids mine_ws.blocks
  let previous_ids := get_ids previous_ws.blocks
  let ids_added_mine := difference mine_ids previous_ids
  let ids_removed_mine := difference previous_ids mine_ids
  let ids_common := intersection mine_ids previous_ids
  let mine_connections := get_connections mine_ws.blocks
  let previous_connections := get_connections previous_ws.blocks
  let connections_added_mine := difference mine_connections previous_connections
  let connections_remove_mine := difference previous_connections mine_connections
  let connections_common := intersection previous_connections mine_connections
  andThen (stepAll (addedBody mine_ws) s ids_added_mine) (fun s =>
  andThen (stepAll (removedBody previous_ws) s ids_removed_mine) (fun s =>
  andThen (stepAll (commonBody mine_ws previous_ws) s ids_common) (fun s =>
  andThen (highlight_connections Side.mineSide mine_ws connections_added_mine s) (fun s =>
  andThen (highlight_connections Side.prevSide previous_ws connections_remove_mine s) (fun s =>
  andThen (unhighlight_connections Side.mineSide mine_ws connections_common s) (fun s =>
  andThen (unhighlight_connections Side.prevSide previous_ws connections_common s) (fun s =>
  stepAll (fieldIdBody mine_ws previous_ws) s ids_common)))))))

/-- Pure mirror of `show_diffs`: the decoration updates it issues and the
exception it raises, both functions of the two workspaces alone. -/
def diffTrace (mine_ws previous_ws : Workspace) : List DOp × Option String :=
  let mine_ids := get_ids mine_ws.blocks
  let previous_ids := get_ids previous_ws.blocks
  let ids_added_mine := difference mine_ids previous_ids
  let ids_removed_mine := difference previous_ids mine_ids
  let ids_common := intersection mine_ids previous_ids
  let mine_connections := get_connections mine_ws.blocks
  let previous_connections := get_connections previous_ws.blocks
  let connections_added_mine := difference mine_connections previous_connections
  let connections_remove_mine := difference previous_connections mine_connections
  let connections_common := intersection previous_connections mine_connections
  seqTrace (traceAll (addedTrace mine_ws) ids_added_mine)
  (seqTrace (traceAll (removedTrace previous_ws) ids_removed_mine)
  (seqTrace (traceAll (commonTrace mine_ws previous_ws) ids_common)
  (seqTrace (traceAll (connLineTrace true Side.mineSide mine_ws) connections_added_mine)
  (seqTrace (traceAll (connLineTrace true Side.prevSide previous_ws) connections_remove_mine)
  (seqTrace (traceAll (connLineTrace false Side.mineSide mine_ws) connections_common)
  (seqTrace (traceAll (connLineTrace false Side.prevSide previous_ws) connections_common)
  (traceAll (fieldIdTrace mine_ws previous_ws) ids_common)))))))

/-! ### The driver factors through its trace -/

theorem applyOps_append (s : DecorState) (a b : List DOp) :
    applyOps s (a ++ b) = applyOps (applyOps s a) b := by
  unfold applyOps
  simp [List.foldl_append]

theorem stepAll_cons {α : Type} (f : DecorState → α → DecorState × Option String)
    (s : DecorState) (x : α) (xs : List α) :
    stepAll f s (x :: xs) =
      (match f s x with
       | (s1, none) => stepAll f s1 xs
       | (s1, some e) => (s1, some e)) := by
  rfl

theorem traceAll_cons {α : Type} (g : α → List DOp × Option String) (x : α)
    (xs : List α) :
    traceAll g (x :: xs) =
      (match g x with
       | (ops, none) => (ops ++ (traceAll g xs).1, (traceAll g xs).2)
       | (ops, some e) => (ops, some e)) := by
  rfl

/-- A loop whose body matches its trace matches its trace. -/
theorem stepAll_eq_trace {α : Type} (f : DecorState → α → DecorState × Option String)
    (g : α → List DOp × Option String)
    (hfg : ∀ s x, f s x = (applyOps s (g x).1, (g x).2)) :
    ∀ (xs : List α) (s : DecorState),
      stepAll f s xs = (applyOps s (traceAll g xs).1, (traceAll g xs).2) := by
  intro xs
  induction xs with
  | nil => intro s; simp [stepAll, traceAll, applyOps]
  | cons x xs ih =>
      intro s
      rw [stepAll_cons, traceAll_cons, hfg]
      rcases hg : g x with ⟨ops, _ | e⟩
      · show stepAll f (applyOps s ops) xs = _
        rw [ih]
        simp [applyOps_append]
      · rfl

/-- Sequencing preserves the trace factorization. -/
theorem andThen_comp (P : DecorState → DecorState × Option String)
    (K : DecorState → DecorState × Option String) (tp tk : List DOp × Option String)
    (hp : ∀ s, P s = (applyOps s tp.1, tp.2))
    (hk : ∀ s, K s = (applyOps s tk.1, tk.2)) :
    ∀ s, andThen (P s) K = (applyOps s (seqTrace tp tk).1, (seqTrace tp tk).2) := by
  intro s
  rw [hp]
  rcases htp : tp.2 with _ | e
  · show K (applyOps s tp.1) = _
    rw [hk]
    unfold seqTrace
    rw [htp]
    simp [applyOps_append]
  · show (applyOps s tp.1, some e) = _
    unfold seqTrace
    rw [htp]

theorem addedBody_eq_trace (mine_ws : Workspace) :
    ∀ (s : DecorState) (id : String),
      addedBody mine_ws s id =
        (applyOps s (addedTrace mine_ws id).1, (addedTrace mine_ws id).2) := by
  intro s id
  unfold addedBody addedTrace
  rcases h : getBlockById mine_ws id with _ | b
  · simp [applyOps]
  · simp [applyOps, applyOp, highlightMineAdded]

theorem removedBody_eq_trace (previous_ws : Workspace) :
    ∀ (s : DecorState) (id : String),
      removedBody previous_ws s id =
        (applyOps s (removedTrace previous_ws id).1, (removedTrace previous_ws id).2) := by
  intro s id
  unfold removedBody removedTrace
  rcases h : getBlockById previous_ws id with _ | b
  · simp [applyOps]
  · simp [applyOps, applyOp, highlightMineRemoved]

theorem commonBody_eq_trace (mine_ws previous_ws : Workspace) :
    ∀ (s : DecorState) (id : String),
      commonBody mine_ws previous_ws s id =
        (applyOps s (commonTrace mine_ws previous_ws id).1,
         (commonTrace mine_ws previous_ws id).2) := by
  intro s id
  unfold commonBody commonTrace
  rcases hp : getBlockById previous_ws id with _ | pb
  · simp [applyOps]
  · rcases hm : getBlockById mine_ws id with _ | mb
    · simp [applyOps, applyOp, unhighlightCommon]
    · simp [applyOps, applyOp, unhighlightCommon]

theorem connLineBody_eq_trace (hl : Bool) (side : Side) (ws : Workspace) :
    ∀ (s : DecorState) (key : String),
      connLineBody hl side ws s key =
        (applyOps s (connLineTrace hl side ws key).1,
         (connLineTrace hl side ws key).2) := by
  intro s key
  simp only [connLineBody, connLineTrace]
  rcases h : getBlockById ws (jsSplit key).headI with _ | b <;> rfl

theorem fieldEntryBody_eq_trace (mine_block previous_block : Block)
    (previous_state : JSRecord) :
    ∀ (s : DecorState) (kv : String × JSVal),
      fieldEntryBody mine_block previous_block previous_state s kv =
        (applyOps s (fieldEntryTrace mine_block previous_block previous_state kv).1,
         (fieldEntryTrace mine_block previous_block previous_state kv).2) := by
  intro s kv
  unfold fieldEntryBody fieldEntryTrace
  rcases hv : fieldVerdict previous_state kv.1 kv.2 with _ | _
  · simp only [Bool.false_eq_true, if_false]
    unfold apply_invalid andThen
    rcases hm : getField mine_block kv.1 with _ | mf
    · simp [applyOps]
    · rcases hp : getField previous_block kv.1 with _ | pf
      · simp [applyOps, applyOp]
      · simp [applyOps, applyOp]
  · simp only [if_true]
    unfold apply_valid andThen
    rcases hm : getField mine_block kv.1 with _ | mf
    · simp [applyOps]
    · rcases hp : getField previous_block kv.1 with _ | pf
      · simp [applyOps, applyOp]
      · simp [applyOps, applyOp]

theorem fieldIdBody_eq_trace (mine_ws previous_ws : Workspace) :
    ∀ (s : DecorState) (id : String),
      fieldIdBody mine_ws previous_ws s id =
        (applyOps s (fieldIdTrace mine_ws previous_ws id).1,
         (fieldIdTrace mine_ws previous_ws id).2) := by
  intro s id
  unfold fieldIdBody fieldIdTrace
  rcases hm : getBlockById mine_ws id with _ | mb
  · simp [applyOps]
  · rcases hp : getBlockById previous_ws id with _ | pb
    · simp [applyOps]
    · exact stepAll_eq_trace _ _ (fieldEntryBody_eq_trace mb pb (saveFields pb)) _ s

/-- `show_diffs` applies exactly the decoration updates of `diffTrace` and
raises exactly its exception — in particular both are independent of the
decoration state it starts from. -/
theorem show_diffs_eq_trace (mine_ws previous_ws : Workspace) :
    ∀ s, show_diffs mine_ws previous_ws s =
      (applyOps s (diffTrace mine_ws previous_ws).1,
       (diffTrace mine_ws previous_ws).2) := by
  unfold show_diffs diffTrace highlight_connections unhighlight_connections
  exact
    andThen_comp _ _ _ _
      (stepAll_eq_trace _ _ (addedBody_eq_trace mine_ws) _)
      (andThen_comp _ _ _ _
        (stepAll_eq_trace _ _ (removedBody_eq_trace previous_ws) _)
        (andThen_comp _ _ _ _
          (stepAll_eq_trace _ _ (commonBody_eq_trace mine_ws previous_ws) _)
          (andThen_comp _ _ _ _
            (stepAll_eq_trace _ _ (connLineBody_eq_trace true Side.mineSide mine_ws) _)
            (andThen_comp _ _ _ _
              (stepAll_eq_trace _ _ (connLineBody_eq_trace true Side.prevSide previous_ws) _)
              (andThen_comp _ _ _ _
                (stepAll_eq_trace _ _ (connLineBody_eq_trace false Side.mineSide mine_ws) _)
                (andThen_comp _ _ _ _
                  (stepAll_eq_trace _ _ (connLineBody_eq_trace false Side.prevSide previous_ws) _)
                  (stepAll_eq_trace _ _ (fieldIdBody_eq_trace mine_ws previous_ws) _)))))))

/-! ### Replaying a fixed update sequence is idempotent -/

/-- The value forced at `k` by the last update of `ops` touching `k`. -/
def lastForced : List DOp → DecorKey → Option Bool
  | [], _ => none
  | op :: ops, k =>
      match lastForced ops k with
      | some b => some b
      | none => if op.1 = k then some op.2 else none

theorem mem_dInsert {s : DecorState} {k x : DecorKey} :
    x ∈ dInsert s k ↔ x ∈ s ∨ x = k := by
  unfold dInsert
  by_cases h : k ∈ s
  · simp only [if_pos h]
    constructor
    · exact Or.inl
    · rintro (hx | rfl)
      · exact hx
      · exact h
  · simp only [if_neg h]
    show x ∈ s ++ [k] ↔ _
    simp [List.mem_append]

theorem mem_dErase {s : DecorState} {k x : DecorKey} :
    x ∈ dErase s k ↔ x ∈ s ∧ x ≠ k := by
  unfold dErase
  show x ∈ List.filter _ s ↔ _
  simp [List.mem_filter]

theorem mem_applyOp {s : DecorState} {op : DOp} {k : DecorKey} :
    k ∈ applyOp s op ↔ (if op.1 = k then op.2 = true else k ∈ s) := by
  rcases op with ⟨k0, b0⟩
  cases b0
  · have he : applyOp s (k0, false) = dErase s k0 := by simp [applyOp]
    rw [he, mem_dErase]
    by_cases h : k0 = k
    · subst h; simp
    · have hne : k ≠ k0 := fun hk => h hk.symm
      simp [h, hne]
  · have hi : applyOp s (k0, true) = dInsert s k0 := by simp [applyOp]
    rw [hi, mem_dInsert]
    by_cases h : k0 = k
    · subst h; simp
    · have hne : ¬ k = k0 := fun hk => h hk.symm
      simp [h, hne]

theorem mem_applyOps (ops : List DOp) :
    ∀ (s : DecorState) (k : DecorKey),
      k ∈ applyOps s ops ↔
        (match lastForced ops k with
         | some b => b = true
         | none => k ∈ s) := by
  induction ops with
  | nil => intro s k; simp [applyOps, lastForced]
  | cons op ops ih =>
      intro s k
      have step : applyOps s (op :: ops) = applyOps (applyOp s op) ops := rfl
      rw [step, ih]
      have lf_cons : lastForced (op :: ops) k =
          (match lastForced ops k with
           | some b => some b
           | none => if op.1 = k then some op.2 else none) := rfl
      rw [lf_cons]
      rcases h : lastForced ops k with _ | b
      · by_cases hop : op.1 = k
        · simp [hop, mem_applyOp]
        · simp [hop, mem_applyOp]
      · rfl

/-- Replaying the same update sequence leaves every mark as it was. -/
theorem applyOps_replay (ops : List DOp) (s : DecorState) (k : DecorKey) :
    k ∈ applyOps (applyOps s ops) ops ↔ k ∈ applyOps s ops := by
  rw [mem_applyOps, mem_applyOps]
  rcases h : lastForced ops k with _ | b <;> rfl

/-! ### Lemmas about property maps -/

theorem getProp_cons (a k : String) (v : JSVal) (t : List (String × JSVal)) :
    getProp ((a, v) :: t) k =
      (match k == a with
       | true => some v
       | false => getProp t k) := by
  rfl

theorem getProp_isSome_iff (m : List (String × JSVal)) (k : String) :
    (getProp m k).isSome = true ↔ k ∈ m.map Prod.fst := by
  induction m with
  | nil => simp [getProp, List.lookup]
  | cons p t ih =>
      rcases p with ⟨a, v⟩
      rw [getProp_cons]
      cases hka : k == a
      · have hne : k ≠ a := by
          intro he
          subst he
          simp at hka
        simp only [List.map_cons, List.mem_cons]
        rw [ih]
        simp [hne]
      · have he : k = a := eq_of_beq hka
        subst he
        simp

/-- Every key assigned by `setProp` was present before or is the new one. -/
theorem mem_keys_setProp {m : List (String × JSVal)} {k : String} {v : JSVal}
    {x : String} (hx : x ∈ (setProp m k v).map Prod.fst) :
    x ∈ m.map Prod.fst ∨ x = k := by
  unfold setProp at hx
  by_cases hs : (getProp m k).isSome = true
  · rw [if_pos hs] at hx
    rcases List.mem_map.mp hx with ⟨p, hp, hpe⟩
    rcases List.mem_map.mp hp with ⟨q, hq, hqe⟩
    subst hqe
    by_cases hqk : q.1 = k
    · right
      rw [← hpe]
      simp [hqk]
    · left
      rw [← hpe]
      simp only [if_neg hqk]
      exact List.mem_map_of_mem Prod.fst hq
  · rw [if_neg hs] at hx
    rw [List.map_append] at hx
    rcases List.mem_append.mp hx with h1 | h2
    · exact Or.inl h1
    · right
      simpa using h2

/-- Keys accumulated by the field loop of `saveFields` over one field row. -/
theorem keys_fields_fold (fr : List Field) :
    ∀ (acc : List (String × JSVal)) (x : String),
      x ∈ (fr.foldl
            (fun fields field =>
              if field.serializable then setProp fields field.name field.state
              else fields)
            acc).map Prod.fst →
        x ∈ acc.map Prod.fst ∨
          x ∈ (fr.filter (fun f => f.serializable)).map (fun f => f.name) := by
  induction fr with
  | nil => intro acc x h; exact Or.inl h
  | cons f fs ih =>
      intro acc x h
      rw [List.foldl_cons] at h
      cases hser : f.serializable
      · rw [hser] at h
        simp only [Bool.false_eq_true, if_false] at h
        rcases ih acc x h with h1 | h2
        · exact Or.inl h1
        · right
          simp [List.filter_cons, hser, h2]
      · rw [hser] at h
        simp only [if_true] at h
        rcases ih _ x h with h1 | h2
        · rcases mem_keys_setProp h1 with h3 | h3
          · exact Or.inl h3
          · right
            subst h3
            simp [List.filter_cons, hser]
        · right
          simp [List.filter_cons, hser, h2]

/-- Keys accumulated by the input loop of `saveFields`. -/
theorem keys_inputs_fold (inputs : List Input) :
    ∀ (acc : List (String × JSVal)) (x : String),
      x ∈ (inputs.foldl
            (fun fields input =>
              input.fieldRow.foldl
                (fun fields field =>
                  if field.serializable then setProp fields field.name field.state
                  else fields)
                fields)
            acc).map Prod.fst →
        x ∈ acc.map Prod.fst ∨
          x ∈ inputs.flatMap
            (fun input =>
              (input.fieldRow.filter (fun f => f.serializable)).map (fun f => f.name)) := by
  induction inputs with
  | nil => intro acc x h; exact Or.inl h
  | cons i is ih =>
      intro acc x h
      rw [List.foldl_cons] at h
      rcases ih _ x h with h1 | h2
      · rcases keys_fields_fold i.fieldRow acc x h1 with h3 | h3
        · exact Or.inl h3
        · right
          simp only [List.flatMap_cons, List.mem_append]
          exact Or.inl h3
      · right
        simp only [List.flatMap_cons, List.mem_append]
        exact Or.inr h2

/-- Every key of `saveFields block` names a serializable field of `block`. -/
theorem saveFields_keys (b : Block) (k : String)
    (h : (getProp (saveFields b).own k).isSome = true) :
    k ∈ serializableFieldNames b := by
  rw [getProp_isSome_iff] at h
  rcases keys_inputs_fold b.inputList [] k h with h1 | h2
  · simp at h1
  · exact h2

/-- Looking up a key in the verdict list is looking it up in the mine-side
state and computing the verdict. -/
theorem lookup_fieldDiffVerdict (prev : JSRecord) :
    ∀ (m : List (String × JSVal)) (key : String),
      List.lookup key (fieldDiffVerdict m prev) =
        (List.lookup key m).map (fun v => fieldVerdict prev key v) := by
  intro m
  induction m with
  | nil => intro key; rfl
  | cons kv t ih =>
      intro key
      rcases kv with ⟨a, x⟩
      have hfd : fieldDiffVerdict ((a, x) :: t) prev =
          (a, fieldVerdict prev a x) :: fieldDiffVerdict t prev := rfl
      rw [hfd]
      cases hka : key == a
      · have hl1 : List.lookup key ((a, fieldVerdict prev a x) :: fieldDiffVerdict t prev) =
            List.lookup key (fieldDiffVerdict t prev) := by
          simp [List.lookup, hka]
        have hl2 : List.lookup key ((a, x) :: t) = List.lookup key t := by
          simp [List.lookup, hka]
        rw [hl1, hl2, ih]
      · have he : key = a := eq_of_beq hka
        subst he
        simp [List.lookup]

/-! ## Concrete instances used by the claim theorems -/

def blkA : Block :=
  { id := "a", xy := (0, 0), inputList := [],
    connections := [{ kind := ConnKind.nextStatement, parentInput := some "DO",
                      targetId := some "b" }] }

def blkA0 : Block :=
  { id := "a", xy := (0, 0), inputList := [],
    connections := [{ kind := ConnKind.nextStatement, parentInput := some "DO",
                      targetId := none }] }

def blkB : Block :=
  { id := "b", xy := (0, 0), inputList := [],
    connections := [{ kind := ConnKind.previousStatement, parentInput := none,
                      targetId := some "a" }] }

def c4_mine : List Block := [blkA, blkB]

def c4_prev : List Block := [blkA0, blkB]

def c2_tree : JTree := JTree.node (JFields.fcons "x" (JTree.leaf (Prim.pint 1)) JFields.fnil)

def c2_heap : Heap := [c2_tree, c2_tree]

def c2_mineBlock : Block :=
  { id := "blk", xy := (0, 0),
    inputList := [{ name := "INP",
                    fieldRow := [{ name := "F", serializable := true,
                                   state := JSVal.ref 0 }] }],
    connections := [] }

def c2_prevBlock : Block :=
  { id := "blk", xy := (0, 0),
    inputList := [{ name := "INP",
                    fieldRow := [{ name := "F", serializable := true,
                                   state := JSVal.ref 1 }] }],
    connections := [] }

def c6_mineBlock : Block :=
  { id := "blk6", xy := (0, 0),
    inputList := [{ name := "I",
                    fieldRow := [{ name := "G", serializable := true,
                                   state := JSVal.prim (Prim.pint 2) }] }],
    connections := [] }

def c6_prevBlock : Block :=
  { id := "blk6", xy := (0, 0), inputList := [], connections := [] }

def c10_block : Block :=
  { id := "blkX", xy := (0, 0),
    inputList := [{ name := "I",
                    fieldRow := [{ name := "NAME", serializable := true,
                                   state := JSVal.prim (Prim.pstr "x") }] }],
    connections := [] }

def c3_ws : Workspace :=
  { id := "prevWS", blocks := [], scrollY := 0, scale := 1, scrollLeft := 0,
    scrollTop := 0 }

def c3_event : SelEvent :=
  { type := "selected", blockId := none, newElementId := some "x" }

def c7_blockM : Block := { id := "tb", xy := (0, 5), inputList := [], connections := [] }

def c7_blockP : Block := { id := "tb", xy := (3, 7), inputList := [], connections := [] }

def c7_mine : Workspace :=
  { id := "M", blocks := [c7_blockM], scrollY := 1, scale := 1, scrollLeft := 0,
    scrollTop := 0 }

def c7_prev : Workspace :=
  { id := "P", blocks := [c7_blockP], scrollY := 0, scale := 1, scrollLeft := 0,
    scrollTop := 0 }

def c7_evA : ScrollEvent := { type := "viewport_change", workspaceId := "M" }

def c7_evB : ScrollEvent := { type := "viewport_change", workspaceId := "P" }

def c7_cmd : ScrollCmd := { workspaceId := "P", x := 3, y := 1 }

/-! ## The claims -/

/-- C1: for every pair of workspaces, the added set (`mine \ previous`), the
removed set (`previous \ mine`) and the common set (`mine ∩ previous`)
computed by `show_diffs` from the two block-id sets are pairwise disjoint and
their union is exactly the union of the two workspaces' block-id sets. -/
theorem claim_C1 (mine_ws previous_ws : Workspace) (x : String) :
    let mine_ids := get_ids mine_ws.blocks
    let previous_ids := get_ids previous_ws.blocks
    let ids_added_mine := difference mine_ids previous_ids
    let ids_removed_mine := difference previous_ids mine_ids
    let ids_common := intersection mine_ids previous_ids
    (¬ (x ∈ ids_added_mine ∧ x ∈ ids_removed_mine)) ∧
    (¬ (x ∈ ids_added_mine ∧ x ∈ ids_common)) ∧
    (¬ (x ∈ ids_removed_mine ∧ x ∈ ids_common)) ∧
    ((x ∈ ids_added_mine ∨ x ∈ ids_removed_mine ∨ x ∈ ids_common) ↔
      (x ∈ mine_ids ∨ x ∈ previous_ids)) := by
  simp only [mem_difference, mem_intersection]
  tauto

/-- C8: `intersection` is commutative as a set operation, `difference A B` is
disjoint from `B`, and both operations send empty inputs to the empty set. -/
theorem claim_C8 :
    (∀ (A B : SSet) (x : String), x ∈ intersection A B ↔ x ∈ intersection B A) ∧
    (∀ (A B : SSet) (x : String), ¬ (x ∈ difference A B ∧ x ∈ B)) ∧
    intersection [] [] = [] ∧ difference [] [] = [] := by
  refine ⟨?_, ?_, rfl, rfl⟩
  · intro A B x
    rw [mem_intersection, mem_intersection]
    tauto
  · intro A B x
    rw [mem_difference]
    tauto

theorem nextEdgeKeys_length (blocks : List Block) :
    (nextEdgeKeys blocks).length =
      (blocks.map
        (fun b => (b.connections.filter
          (fun c => c.kind = ConnKind.nextStatement)).length)).sum := by
  induction blocks with
  | nil => rfl
  | cons b bs ih =>
      unfold nextEdgeKeys at *
      simp only [List.flatMap_cons, List.length_append, List.map_cons, List.sum_cons, ih,
        length_filterMap_nextEdgeKeyOf]

/-- C4: the edge-key extractor emits exactly one edge key per next-statement
connection — as a set, `get_connections` holds exactly the keys
`sourceId ++ " " ++ (input name or "next") ++ " " ++ (target id or "none")`,
one emission per next-statement connection whether attached or dangling; in
the concrete scenario, block `a` connected to block `b` through input `DO`
yields the key `"a DO b"`, which lands in the added edge set and in neither
the removed nor the common one. -/
theorem claim_C4 :
    (∀ (blocks : List Block) (k : String),
        k ∈ get_connections blocks ↔ k ∈ nextEdgeKeys blocks) ∧
    (∀ blocks : List Block,
        (nextEdgeKeys blocks).length =
          (blocks.map
            (fun b => (b.connections.filter
              (fun c => c.kind = ConnKind.nextStatement)).length)).sum) ∧
    "a DO b" ∈ get_connections c4_mine ∧
    "a DO b" ∈ difference (get_connections c4_mine) (get_connections c4_prev) ∧
    "a DO b" ∉ difference (get_connections c4_prev) (get_connections c4_mine) ∧
    "a DO b" ∉ intersection (get_connections c4_prev) (get_connections c4_mine) := by
  exact ⟨fun blocks k => mem_get_connections, nextEdgeKeys_length,
    by decide, by decide, by decide, by decide⟩

/-- C9: for space-free components, the space-joined edge key built by
`get_connections` round-trips through the `split(' ')`-based parsing used by
`highlight_connections` and `unhighlight_connections`. -/
theorem claim_C9 (a n t : String) (ha : ' ' ∉ a.data) (hn : ' ' ∉ n.data)
    (ht : ' ' ∉ t.data) :
    jsSplit (edgeKey a n t) = [a, n, t] := by
  have hsp : (" " : String).data = [' '] := rfl
  have hmk : ∀ s : String, String.mk s.data = s := fun s => rfl
  have hdata : (edgeKey a n t).data =
      a.data ++ ' ' :: (n.data ++ ' ' :: t.data) := by
    unfold edgeKey
    rw [string_data_append, string_data_append, string_data_append,
      string_data_append, hsp]
    simp [List.append_assoc]
  unfold jsSplit
  rw [hdata, splitChars_append_sep _ ha, splitChars_append_sep _ hn,
    splitChars_no_sep ht]
  simp [hmk]

/-- C9 witness: the key of the concrete `"a" / "DO" / "b"` edge parses back
into its three components. -/
theorem claim_C9_witness :
    (' ' ∉ "a".data) ∧ (' ' ∉ "DO".data) ∧ (' ' ∉ "b".data) ∧
    jsSplit (edgeKey "a" "DO" "b") = ["a", "DO", "b"] :=
  ⟨by decide, by decide, by decide,
    claim_C9 "a" "DO" "b" (by decide) (by decide) (by decide)⟩

/-- C2 counterexample: two serialized field states that are structurally
(deep) equal but distinct object references — the heap holds the same tree at
addresses 0 and 1 — get the "unequal" verdict from the diff loop, because
line 679 compares with `===` (reference identity for objects), not deep
equality. -/
theorem claim_C2_counterexample :
    getProp (saveFields c2_mineBlock).own "F" = some (JSVal.ref 0) ∧
    getMember (saveFields c2_prevBlock) "F" = some (JSVal.ref 1) ∧
    deepEq c2_heap (JSVal.ref 1) (JSVal.ref 0) = true ∧
    List.lookup "F"
      (fieldDiffVerdict (saveFields c2_mineBlock).own (saveFields c2_prevBlock)) =
      some false := by
  refine ⟨by decide, by decide, by decide, by decide⟩

/-- C2 amended: for every common block and field name present in the
mine-side state, the field-diff verdict is "equal" iff the previous-side
serialized value exists and is *strictly* equal (`===`) to the mine-side
value — value equality for primitives, reference identity for object-valued
states.  Deep equality agrees with the verdict on primitive values (second
conjunct), but not on object references (see the counterexample). -/
theorem claim_C2_amended (mine_block previous_block : Block) (key : String)
    (value : JSVal)
    (hmine : List.lookup key (saveFields mine_block).own = some value) :
    (List.lookup key
        (fieldDiffVerdict (saveFields mine_block).own (saveFields previous_block)) =
        some true ↔
      ∃ pv, getMember (saveFields previous_block) key = some pv ∧
        strictEq pv value = true) ∧
    (∀ (hp : Heap) (p q : Prim),
      deepEq hp (JSVal.prim p) (JSVal.prim q) =
        strictEq (JSVal.prim p) (JSVal.prim q)) := by
  constructor
  · rw [lookup_fieldDiffVerdict, hmine]
    show some (fieldVerdict (saveFields previous_block) key value) = some true ↔ _
    constructor
    · intro hv
      have hv1 : fieldVerdict (saveFields previous_block) key value = true :=
        Option.some.inj hv
      unfold fieldVerdict at hv1
      rcases hm : getMember (saveFields previous_block) key with _ | pv
      · rw [hm] at hv1
        cases hv1
      · rw [hm] at hv1
        exact ⟨pv, rfl, hv1⟩
    · rintro ⟨pv, hm, hs⟩
      have hv1 : fieldVerdict (saveFields previous_block) key value = true := by
        unfold fieldVerdict
        rw [hm]
        exact hs
      rw [hv1]
  · intro hp p q
    rfl

/-- C2 witness: the amended claim evaluated at the concrete blocks of the
counterexample — the verdict iff-condition is decidable there. -/
theorem claim_C2_witness :
    List.lookup "F" (saveFields c2_mineBlock).own = some (JSVal.ref 0) ∧
    ((List.lookup "F"
        (fieldDiffVerdict (saveFields c2_mineBlock).own (saveFields c2_prevBlock)) =
        some true ↔
      ∃ pv, getMember (saveFields c2_prevBlock) "F" = some pv ∧
        strictEq pv (JSVal.ref 0) = true) ∧
    (∀ (hp : Heap) (p q : Prim),
      deepEq hp (JSVal.prim p) (JSVal.prim q) =
        strictEq (JSVal.prim p) (JSVal.prim q))) :=
  ⟨by decide, claim_C2_amended c2_mineBlock c2_prevBlock "F" (JSVal.ref 0) (by decide)⟩

/-- C6: a field name present in the mine-side field state but absent from the
previous-side state gets the "unequal" (invalid) verdict: `undefined` is
`===` to no serialized value. -/
theorem claim_C6 (mine_block previous_block : Block) (key : String) (value : JSVal)
    (hmine : List.lookup key (saveFields mine_block).own = some value)
    (hprev : getMember (saveFields previous_block) key = none) :
    List.lookup key
      (fieldDiffVerdict (saveFields mine_block).own (saveFields previous_block)) =
      some false := by
  rw [lookup_fieldDiffVerdict, hmine]
  have hv : fieldVerdict (saveFields previous_block) key value = false := by
    unfold fieldVerdict
    rw [hprev]
  show some (fieldVerdict (saveFields previous_block) key value) = some false
  rw [hv]

/-- C6 witness: block `blk6` has field `G` on the mine side only; the verdict
recorded for `G` is the invalid one. -/
theorem claim_C6_witness :
    List.lookup "G" (saveFields c6_mineBlock).own = some (JSVal.prim (Prim.pint 2)) ∧
    getMember (saveFields c6_prevBlock) "G" = none ∧
    List.lookup "G"
      (fieldDiffVerdict (saveFields c6_mineBlock).own (saveFields c6_prevBlock)) =
      some false :=
  ⟨by decide, by decide,
    claim_C6 c6_mineBlock c6_prevBlock "G" (JSVal.prim (Prim.pint 2))
      (by decide) (by decide)⟩

/-- C10: the field-state record built by `saveFields` has a null prototype
(`Object.create(null)`): any name that is not a serializable field name of
the block — including `Object.prototype` members such as `"toString"` — reads
as absent; by contrast an ordinary record with the object prototype reports
`"toString"` as present. -/
theorem claim_C10 (b : Block) (k : String) (hk : k ∉ serializableFieldNames b) :
    getMember (saveFields b) k = none ∧
    getMember { own := [], hasObjectProto := true } "toString" =
      some (JSVal.builtin "toString") := by
  constructor
  · have hnone : getProp (saveFields b).own k = none := by
      rcases hg : getProp (saveFields b).own k with _ | v
      · rfl
      · exact absurd (saveFields_keys b k (by rw [hg]; rfl)) hk
    unfold getMember
    rw [hnone]
    rfl
  · rfl

/-- C10 witness: on the concrete block whose only serializable field is
`NAME`, looking up `"toString"` and `"constructor"` misses. -/
theorem claim_C10_witness :
    ("toString" ∉ serializableFieldNames c10_block) ∧
    (getMember (saveFields c10_block) "toString" = none ∧
      getMember { own := [], hasObjectProto := true } "toString" =
        some (JSVal.builtin "toString")) :=
  ⟨by decide, claim_C10 c10_block "toString" (by decide)⟩

/-- C3: contrary to the spec, the selection bridge does *not* silently skip
when the selected id has no correspondent: both handlers dereference the
failed `getBlockById` result (`block.workspace` at line 598,
`block.workspace` at line 612) and throw a `TypeError`.  Evaluated at the
failing input: a `selected` event for id `"x"` against a workspace holding no
block `"x"`. -/
theorem claim_C3_bug :
    myMineSelection c3_ws c3_event = Except.error "TypeError: block is null" ∧
    myPreviousSelection c3_ws c3_event = Except.error "TypeError: block is null" := by
  exact ⟨rfl, rfl⟩

/-- C7: from an unset reentrancy flag, a viewport-change event that makes the
synchronizer issue a scroll command leaves the flag set, so the next
viewport-change event — the echo of that scroll — issues no command and just
clears the flag. -/
theorem claim_C7 (mine_ws previous_ws : Workspace) (evA evB : ScrollEvent)
    (b1 : Bool) (cmd : ScrollCmd)
    (h1 : scroll mine_ws previous_ws false evA = (b1, some cmd))
    (h2 : evB.type = "viewport_change") :
    scroll mine_ws previous_ws b1 evB = (false, none) := by
  have hb1 : b1 = true := by
    unfold scroll at h1
    by_cases ht : evA.type = "viewport_change"
    · rw [if_pos ht] at h1
      simp only [Bool.false_eq_true, if_false] at h1
      by_cases hw : evA.workspaceId = mine_ws.id
      · rw [if_pos hw] at h1
        have := congrArg Prod.fst h1
        exact this.symm
      · rw [if_neg hw] at h1
        have := congrArg Prod.fst h1
        exact this.symm
    · rw [if_neg ht] at h1
      have := congrArg Prod.snd h1
      simp at this
  subst hb1
  unfold scroll
  rw [if_pos h2]
  rfl

/-- C7 witness: a concrete viewport-change on workspace `M` issues the scroll
command `("P", 3, 1)`; the follow-up event on `P` is suppressed and clears
the flag. -/
theorem claim_C7_witness :
    scroll c7_mine c7_prev false c7_evA = (true, some c7_cmd) ∧
    scroll c7_mine c7_prev true c7_evB = (false, none) :=
  ⟨by decide, claim_C7 c7_mine c7_prev c7_evA c7_evB true c7_cmd (by decide) rfl⟩

/-- C5: running the highlight driver twice against unchanged workspaces (and
hence an unchanged diff result) raises the same outcome and leaves every
decoration — block classes, connection highlight markers, field validity
marks — exactly as a single run does. -/
theorem claim_C5 (mine_ws previous_ws : Workspace) (s0 : DecorState) :
    (show_diffs mine_ws previous_ws ((show_diffs mine_ws previous_ws s0).1)).2 =
      (show_diffs mine_ws previous_ws s0).2 ∧
    ∀ k, k ∈ (show_diffs mine_ws previous_ws ((show_diffs mine_ws previous_ws s0).1)).1 ↔
      k ∈ (show_diffs mine_ws previous_ws s0).1 := by
  have hb := show_diffs_eq_trace mine_ws previous_ws
  constructor
  · rw [hb, hb]
  · intro k
    rw [hb, hb]
    exact applyOps_replay _ _ k

end BlocklyDiff
